import Mathlib

/-!
Verification of the SMT type-translation layer of a Solidity-style
compiler (libsolidity/formal/SymbolicTypes.cpp).

The layer classifies source types into categories, normalizes the
numeric-like categories onto plain integer types, translates types into
SMT sorts, instantiates symbolic variables, and installs zero/unknown
value constraints on a solver.

Everything below is a shallow embedding of SymbolicTypes.cpp.  The parts
of the repository that this file depends on but that are outside the
provided sources (libsolidity/ast/Types.h and
libsolidity/formal/SymbolicVariable.h: the IntegerType constructor's
signedness, IntegerType::minValue/maxValue, and the symbolic-variable
class hierarchy) are modelled from the specification and marked as such
in their doc comments.
-/

namespace SymbolicTypes

/-- Signedness of an integer type (IntegerType::Modifier). -/
inductive Signedness
  | signed
  | unsigned
deriving DecidableEq, Repr

/-- Type::Category: the closed classification of source types.  `Other`
stands for every unsupported category (structs, arrays, contracts,
enums, strings, ...). -/
inductive Category
  | Integer
  | RationalNumber
  | FixedBytes
  | Address
  | Bool
  | Mapping
  | Function
  | Other
deriving DecidableEq, Repr

/-- Source types, with the data the translation layer reads from them:
integer bit-width and signedness, fractional-ness of a rational
literal, byte count of a fixed-bytes type, mapping key/value types,
function parameter/return type sequences.  `other` carries an opaque
tag distinguishing the unsupported types from one another. -/
inductive Ty
  | integer (bits : Nat) (sign : Signedness)
  | rational (isFractional : Bool)
  | fixedBytes (numBytes : Nat)
  | address
  | bool
  | mapping (key value : Ty)
  | function (params : List Ty) (returns : List Ty)
  | other (tag : Nat)

/-- Type::category(): the category tag of a type. -/
def Ty.category : Ty → Category
  | Ty.integer _ _ => Category.Integer
  | Ty.rational _ => Category.RationalNumber
  | Ty.fixedBytes _ => Category.FixedBytes
  | Ty.address => Category.Address
  | Ty.bool => Category.Bool
  | Ty.mapping _ _ => Category.Mapping
  | Ty.function _ _ => Category.Function
  | Ty.other _ => Category.Other

/-- isInteger (SymbolicTypes.cpp line 155). -/
def isInteger (c : Category) : Bool := c == Category.Integer

/-- isRational (line 160). -/
def isRational (c : Category) : Bool := c == Category.RationalNumber

/-- isFixedBytes (line 165). -/
def isFixedBytes (c : Category) : Bool := c == Category.FixedBytes

/-- isAddress (line 170). -/
def isAddress (c : Category) : Bool := c == Category.Address

/-- isNumber (line 175). -/
def isNumber (c : Category) : Bool :=
  isInteger c || isRational c || isFixedBytes c || isAddress c

/-- isBool (line 183). -/
def isBool (c : Category) : Bool := c == Category.Bool

/-- isFunction (line 188). -/
def isFunction (c : Category) : Bool := c == Category.Function

/-- isMapping (line 193). -/
def isMapping (c : Category) : Bool := c == Category.Mapping

/-- isSupportedType (line 82). -/
def isSupportedType (c : Category) : Bool :=
  isNumber c || isBool c || isFunction c || isMapping c

/-- smt::Kind: the solver's kinds of sorts. -/
inductive Kind
  | kInt
  | kBool
  | kFunction
  | kArray
deriving DecidableEq, Repr

/-- smtKind (line 68): classify a category into a solver kind; abstract
types fall through to Int. -/
def smtKind (c : Category) : Kind :=
  if isNumber c then Kind.kInt
  else if isBool c then Kind.kBool
  else if isMapping c then Kind.kArray
  else if isFunction c then Kind.kFunction
  else Kind.kInt

/-- smt::Sort: Int, Bool, FunctionSort(domain, codomain),
ArraySort(key, value). -/
inductive SmtSort
  | int
  | bool
  | function (domain : List SmtSort) (codomain : SmtSort)
  | array (key value : SmtSort)

mutual

/-- smtSort (lines 27-58), dispatching on smtKind of the category:
numbers and abstract types give Int, Bool gives Bool, a function type
gives FunctionSort of its parameter sorts and its single return sort
(the solAssert that there is exactly one return type is modelled as
`none`, as are the dynamic_cast assertions), a mapping gives ArraySort
of its key and value sorts. -/
def smtSort : Ty → Option SmtSort
  | Ty.integer _ _ => some SmtSort.int
  | Ty.rational _ => some SmtSort.int
  | Ty.fixedBytes _ => some SmtSort.int
  | Ty.address => some SmtSort.int
  | Ty.other _ => some SmtSort.int
  | Ty.bool => some SmtSort.bool
  | Ty.function ps rs =>
      (smtSortList ps).bind fun paramSorts =>
        match rs with
        | [r] => (smtSort r).map fun returnSort => SmtSort.function paramSorts returnSort
        | _ => none
  | Ty.mapping k v =>
      (smtSort k).bind fun ks => (smtSort v).map fun vs => SmtSort.array ks vs

/-- smtSort on a vector of types (lines 60-66): element-wise, in order. -/
def smtSortList : List Ty → Option (List SmtSort)
  | [] => some []
  | t :: ts => (smtSort t).bind fun s => (smtSortList ts).map fun ss => s :: ss

end

/-- convertSolidityType (lines 134-148).  Modelled from the spec: the
IntegerType constructor called here lives in libsolidity/ast/Types.h,
which is not among the provided sources; the spec fixes the signedness
of its results as Address → unsigned 160-bit, FixedBytes(n) → unsigned
(8·n)-bit, RationalNumber → signed 256-bit.  Every other type is
returned unchanged. -/
def convertSolidityType (t : Ty) : Ty :=
  if isAddress t.category then Ty.integer 160 Signedness.unsigned
  else if isFixedBytes t.category then
    match t with
    | Ty.fixedBytes n => Ty.integer (n * 8) Signedness.unsigned
    | _ => t
  else if isRational t.category then Ty.integer 256 Signedness.signed
  else t

/-- Modelled from the spec: the symbolic-variable class hierarchy
(SymbolicIntVariable, SymbolicBoolVariable, SymbolicFixedBytesVariable,
SymbolicAddressVariable, SymbolicMappingVariable) is declared in
libsolidity/formal/SymbolicVariable.h, which is not among the provided
sources.  Each variant records the data its constructor receives: the
integer, boolean and mapping variants carry their type, the fixed-bytes
variant carries its byte width, the address variant is the fixed
160-bit unsigned variant with no parameterization.  Every variant
carries the unique name registered with the solver. -/
inductive SymbolicVariable
  | intVar (type : Ty) (uniqueName : String)
  | boolVar (type : Ty) (uniqueName : String)
  | fixedBytesVar (numBytes : Nat) (uniqueName : String)
  | addressVar (uniqueName : String)
  | mappingVar (type : Ty) (uniqueName : String)

/-- Modelled from the spec: the type a symbolic variable represents
(SymbolicVariable::type()).  A fixed-bytes variable of n bytes is an
integer variable over the unsigned (8·n)-bit integer type, an address
variable is an integer variable over the unsigned 160-bit integer
type. -/
def SymbolicVariable.type : SymbolicVariable → Ty
  | SymbolicVariable.intVar t _ => t
  | SymbolicVariable.boolVar t _ => t
  | SymbolicVariable.fixedBytesVar n _ => Ty.integer (8 * n) Signedness.unsigned
  | SymbolicVariable.addressVar _ => Ty.integer 160 Signedness.unsigned
  | SymbolicVariable.mappingVar t _ => t

/-- newSymbolicVariable (lines 90-132).  The decision chain is embedded
exactly as written: the first branch tests the supportedness of the
normalized type's category; the Bool, FixedBytes, Address and Rational
branches test the original type's category while the Function and
Integer branches test the normalized type's category.  The solAssert
calls (the failed dynamic_casts in the FixedBytes and Rational branches
and the final fall-through solAssert(false)) are modelled as `none`.
The IntegerType(256) constructed for the abstract, function and
fractional-rational cases is the signed 256-bit integer type, as fixed
by the spec (the constructor itself is outside the provided sources). -/
def newSymbolicVariable (t : Ty) (uniqueName : String) :
    Option (Bool × SymbolicVariable) :=
  let type := convertSolidityType t
  if !(isSupportedType type.category) then
    some (true, SymbolicVariable.intVar (Ty.integer 256 Signedness.signed) uniqueName)
  else if isBool t.category then
    some (false, SymbolicVariable.boolVar type uniqueName)
  else if isFunction type.category then
    some (false, SymbolicVariable.intVar (Ty.integer 256 Signedness.signed) uniqueName)
  else if isInteger type.category then
    some (false, SymbolicVariable.intVar type uniqueName)
  else if isFixedBytes t.category then
    match type with
    | Ty.fixedBytes n => some (false, SymbolicVariable.fixedBytesVar n uniqueName)
    | _ => none
  else if isAddress t.category then
    some (false, SymbolicVariable.addressVar uniqueName)
  else if isRational t.category then
    match t with
    | Ty.rational fr =>
        if fr then
          some (false, SymbolicVariable.intVar (Ty.integer 256 Signedness.signed) uniqueName)
        else
          some (false, SymbolicVariable.intVar type uniqueName)
    | _ => none
  else if isMapping t.category then
    some (false, SymbolicVariable.mappingVar type uniqueName)
  else
    none

/-- Modelled from the spec: IntegerType::minValue lives in
libsolidity/ast/Types.h, outside the provided sources; the spec fixes
the bounds as [0, 2^n − 1] for unsigned and [−2^(n−1), 2^(n−1) − 1] for
signed. -/
def minValue (bits : Nat) (sign : Signedness) : Int :=
  match sign with
  | Signedness.unsigned => 0
  | Signedness.signed => -(2 ^ (bits - 1) : Int)

/-- Modelled from the spec: IntegerType::maxValue, see `minValue`. -/
def maxValue (bits : Nat) (sign : Signedness) : Int :=
  match sign with
  | Signedness.unsigned => (2 ^ bits : Int) - 1
  | Signedness.signed => (2 ^ (bits - 1) : Int) - 1

/-- smt::Expression: the fragment of the solver's expression algebra
this layer builds — integer and boolean literals, an opaque handle for
a variable's current value, equality and ordering comparisons. -/
inductive SmtExpr
  | intLit (n : Int)
  | boolLit (b : Bool)
  | sym (name : String)
  | eq (a b : SmtExpr)
  | ge (a b : SmtExpr)
  | le (a b : SmtExpr)
deriving DecidableEq, Repr

/-- setSymbolicZeroValue (lines 213-219): the solver's assertion log is
the list, addAssertion appends.  If the type is an Integer, assert
expr == 0; if Bool, assert expr == false; otherwise install nothing.
The Integer category holds exactly for the `integer` constructor, so
the branches match on the constructor directly. -/
def setSymbolicZeroValue (e : SmtExpr) (t : Ty) (assertions : List SmtExpr) :
    List SmtExpr :=
  match t with
  | Ty.integer _ _ => assertions ++ [SmtExpr.eq e (SmtExpr.intLit 0)]
  | Ty.bool => assertions ++ [SmtExpr.eq e (SmtExpr.boolLit false)]
  | _ => assertions

/-- setSymbolicUnknownValue (lines 226-235): if the type is an Integer,
assert expr >= minValue and expr <= maxValue, in that order; otherwise
install nothing.  The Integer category holds exactly for the `integer`
constructor, so the dynamic_cast (and its solAssert) is total and the
branch matches on the constructor directly. -/
def setSymbolicUnknownValue (e : SmtExpr) (t : Ty) (assertions : List SmtExpr) :
    List SmtExpr :=
  match t with
  | Ty.integer bits sign =>
      assertions ++
        [SmtExpr.ge e (SmtExpr.intLit (minValue bits sign)),
         SmtExpr.le e (SmtExpr.intLit (maxValue bits sign))]
  | _ => assertions


/-! ## Theorems -/

/-- C1 (counterexample): for the function type (uint256) returns (bool),
newSymbolicVariable returns abstracted == false and an integer variable
over the signed 256-bit integer type, whose sort is Int, while the Sort
Translator gives the function type itself the sort Function([Int], Bool);
the two sorts differ, so the claimed sort/variable consistency fails on
non-abstracted function types. -/
theorem newSymbolicVariable_function_sort_mismatch :
    newSymbolicVariable (Ty.function [Ty.integer 256 Signedness.unsigned] [Ty.bool]) "f" =
      some (false, SymbolicVariable.intVar (Ty.integer 256 Signedness.signed) "f") ∧
    smtSort (SymbolicVariable.intVar (Ty.integer 256 Signedness.signed) "f").type =
      some SmtSort.int ∧
    smtSort (Ty.function [Ty.integer 256 Signedness.unsigned] [Ty.bool]) =
      some (SmtSort.function [SmtSort.int] SmtSort.bool) ∧
    (some SmtSort.int : Option SmtSort) ≠ some (SmtSort.function [SmtSort.int] SmtSort.bool) := by
  refine ⟨rfl, rfl, rfl, ?_⟩
  intro h
  injection h with h2
  exact SmtSort.noConfusion h2

/-- C1 (amended): for every supported type t whose category is not
Function, newSymbolicVariable returns abstracted == false and the sort
computed by the Sort Translator for the returned variable's type equals
sortOf(t). -/
theorem newSymbolicVariable_sort_consistent (t : Ty) (name : String)
    (hsupp : isSupportedType t.category = true)
    (hfn : t.category ≠ Category.Function) :
    (newSymbolicVariable t name).map Prod.fst = some false ∧
    (newSymbolicVariable t name).map (fun p => smtSort p.snd.type) = some (smtSort t) := by
  cases t with
  | integer bits sign => exact ⟨rfl, rfl⟩
  | rational fr => exact ⟨rfl, rfl⟩
  | fixedBytes n => exact ⟨rfl, rfl⟩
  | address => exact ⟨rfl, rfl⟩
  | bool => exact ⟨rfl, rfl⟩
  | mapping k v => exact ⟨rfl, rfl⟩
  | function ps rs => exact absurd rfl hfn
  | other tag => exact Bool.noConfusion hsupp

/-- C1 (witness): the amended consistency at the mapping type
mapping(uint8 => bool). -/
theorem newSymbolicVariable_sort_consistent_witness :
    isSupportedType (Ty.mapping (Ty.integer 8 Signedness.unsigned) Ty.bool).category = true ∧
    (Ty.mapping (Ty.integer 8 Signedness.unsigned) Ty.bool).category ≠ Category.Function ∧
    ((newSymbolicVariable (Ty.mapping (Ty.integer 8 Signedness.unsigned) Ty.bool) "m").map
        Prod.fst = some false ∧
      (newSymbolicVariable (Ty.mapping (Ty.integer 8 Signedness.unsigned) Ty.bool) "m").map
        (fun p => smtSort p.snd.type) =
        some (smtSort (Ty.mapping (Ty.integer 8 Signedness.unsigned) Ty.bool))) :=
  ⟨rfl, by decide,
    newSymbolicVariable_sort_consistent
      (Ty.mapping (Ty.integer 8 Signedness.unsigned) Ty.bool) "m" rfl (by decide)⟩

/-- C2 (code evaluated at the failing input): for FixedBytes(4) the
Integer branch of the decision chain fires first, because it tests the
normalized type's category and normalization turned FixedBytes(4) into
the unsigned 32-bit integer type; the result is an integer variable
over Integer(32, unsigned), not a fixed-bytes variable of byte width 4,
whose branch is unreachable. -/
theorem newSymbolicVariable_fixedBytes4_intVariable :
    newSymbolicVariable (Ty.fixedBytes 4) "b" =
      some (false, SymbolicVariable.intVar (Ty.integer 32 Signedness.unsigned) "b") ∧
    newSymbolicVariable (Ty.fixedBytes 4) "b" ≠
      some (false, SymbolicVariable.fixedBytesVar 4 "b") := by
  refine ⟨rfl, ?_⟩
  intro h
  have h2 : (some (false, SymbolicVariable.intVar (Ty.integer 32 Signedness.unsigned) "b") :
      Option (Bool × SymbolicVariable)) =
      some (false, SymbolicVariable.fixedBytesVar 4 "b") := h
  simp at h2

/-- C3 (code evaluated at the failing input): for the Address type the
Integer branch of the decision chain fires first, because it tests the
normalized type's category and normalization turned Address into the
unsigned 160-bit integer type; the result is an integer variable over
Integer(160, unsigned), not an address variable, whose branch is
unreachable. -/
theorem newSymbolicVariable_address_intVariable :
    newSymbolicVariable Ty.address "a" =
      some (false, SymbolicVariable.intVar (Ty.integer 160 Signedness.unsigned) "a") ∧
    newSymbolicVariable Ty.address "a" ≠ some (false, SymbolicVariable.addressVar "a") := by
  refine ⟨rfl, ?_⟩
  intro h
  have h2 : (some (false, SymbolicVariable.intVar (Ty.integer 160 Signedness.unsigned) "a") :
      Option (Bool × SymbolicVariable)) = some (false, SymbolicVariable.addressVar "a") := h
  simp at h2

/-- C4: for every type whose category is outside the supported set
(Integer, Bool, Function, Mapping, FixedBytes, Address, RationalNumber),
newSymbolicVariable returns abstracted == true together with an integer
variable over the signed 256-bit integer type, whose sort is Int. -/
theorem newSymbolicVariable_unsupported_abstracts (t : Ty) (name : String)
    (h : t.category ∉ [Category.Integer, Category.Bool, Category.Function,
      Category.Mapping, Category.FixedBytes, Category.Address, Category.RationalNumber]) :
    newSymbolicVariable t name =
      some (true, SymbolicVariable.intVar (Ty.integer 256 Signedness.signed) name) ∧
    smtSort (SymbolicVariable.intVar (Ty.integer 256 Signedness.signed) name).type =
      some SmtSort.int := by
  cases t with
  | integer bits sign => simp [Ty.category] at h
  | rational fr => simp [Ty.category] at h
  | fixedBytes n => simp [Ty.category] at h
  | address => simp [Ty.category] at h
  | bool => simp [Ty.category] at h
  | mapping k v => simp [Ty.category] at h
  | function ps rs => simp [Ty.category] at h
  | other tag => exact ⟨rfl, rfl⟩

/-- C4 (witness): abstraction at an unsupported type (e.g. a struct). -/
theorem newSymbolicVariable_unsupported_abstracts_witness :
    (Ty.other 0).category ∉ [Category.Integer, Category.Bool, Category.Function,
      Category.Mapping, Category.FixedBytes, Category.Address, Category.RationalNumber] ∧
    (newSymbolicVariable (Ty.other 0) "s" =
        some (true, SymbolicVariable.intVar (Ty.integer 256 Signedness.signed) "s") ∧
      smtSort (SymbolicVariable.intVar (Ty.integer 256 Signedness.signed) "s").type =
        some SmtSort.int) :=
  ⟨by decide, newSymbolicVariable_unsupported_abstracts (Ty.other 0) "s" (by decide)⟩

/-- C5: for a rational type, a fractional literal yields abstraction to
an integer variable over the signed 256-bit integer type while a
non-fractional literal yields an integer variable over the normalized
type; the abstracted flag is false in both cases, and the two outcomes
coincide because the normalized type of a rational is exactly the
signed 256-bit integer type. -/
theorem newSymbolicVariable_rational (fr : Bool) (name : String) :
    newSymbolicVariable (Ty.rational fr) name =
      some (false, SymbolicVariable.intVar
        (if fr then Ty.integer 256 Signedness.signed
         else convertSolidityType (Ty.rational fr)) name) := by
  cases fr
  · rfl
  · rfl

/-- C6: normalization maps Address to the unsigned 160-bit integer
type, FixedBytes(n) to the unsigned (8·n)-bit integer type, and a
rational to the signed 256-bit integer type regardless of whether the
literal is fractional or integral, and returns every other category
(including Integer and Bool) unchanged. -/
theorem convertSolidityType_normalization (n : Nat) (fr : Bool) (t : Ty) :
    convertSolidityType Ty.address = Ty.integer 160 Signedness.unsigned ∧
    convertSolidityType (Ty.fixedBytes n) = Ty.integer (8 * n) Signedness.unsigned ∧
    convertSolidityType (Ty.rational fr) = Ty.integer 256 Signedness.signed ∧
    (t.category ≠ Category.Address → t.category ≠ Category.FixedBytes →
      t.category ≠ Category.RationalNumber → convertSolidityType t = t) := by
  refine ⟨rfl, ?_, rfl, ?_⟩
  · show Ty.integer (n * 8) Signedness.unsigned = Ty.integer (8 * n) Signedness.unsigned
    rw [Nat.mul_comm]
  · intro h1 h2 h3
    cases t
    case address => exact absurd rfl h1
    case fixedBytes => exact absurd rfl h2
    case rational => exact absurd rfl h3
    all_goals rfl

/-- C6 (witness): normalization at Address, FixedBytes(4), a fractional
rational, and the untouched Bool type. -/
theorem convertSolidityType_normalization_witness :
    convertSolidityType Ty.address = Ty.integer 160 Signedness.unsigned ∧
    convertSolidityType (Ty.fixedBytes 4) = Ty.integer (8 * 4) Signedness.unsigned ∧
    convertSolidityType (Ty.rational true) = Ty.integer 256 Signedness.signed ∧
    convertSolidityType Ty.bool = Ty.bool :=
  ⟨(convertSolidityType_normalization 4 true Ty.bool).1,
   (convertSolidityType_normalization 4 true Ty.bool).2.1,
   (convertSolidityType_normalization 4 true Ty.bool).2.2.1,
   (convertSolidityType_normalization 4 true Ty.bool).2.2.2
     (by decide) (by decide) (by decide)⟩

/-- C7: the Sort Translator on a function type with exactly one return
type produces the function sort of the element-wise parameter sorts and
the return sort, while a function type with any other number of return
types is a contract violation (modelled as none), never a silent pick
of one return type. -/
theorem smtSort_function_single_return (ps rs : List Ty) (r : Ty)
    (os : List SmtSort) (o : SmtSort)
    (hps : smtSortList ps = some os) (hr : smtSort r = some o)
    (hrs : rs.length ≠ 1) :
    smtSort (Ty.function ps [r]) = some (SmtSort.function os o) ∧
    smtSort (Ty.function ps rs) = none := by
  constructor
  · show ((smtSortList ps).bind fun paramSorts =>
        (smtSort r).map fun returnSort => SmtSort.function paramSorts returnSort) =
      some (SmtSort.function os o)
    rw [hps, hr]
    rfl
  · cases rs with
    | nil =>
        show ((smtSortList ps).bind fun paramSorts => none) = none
        cases smtSortList ps <;> rfl
    | cons a l =>
        cases l with
        | nil => exact absurd rfl hrs
        | cons b l2 =>
            show ((smtSortList ps).bind fun paramSorts => none) = none
            cases smtSortList ps <;> rfl

/-- C7 (witness): function(uint256) returns (bool) has sort
Function([Int], Bool); two return types give a contract violation. -/
theorem smtSort_function_single_return_witness :
    smtSortList [Ty.integer 256 Signedness.unsigned] = some [SmtSort.int] ∧
    smtSort Ty.bool = some SmtSort.bool ∧
    ([Ty.integer 256 Signedness.unsigned, Ty.bool] : List Ty).length ≠ 1 ∧
    (smtSort (Ty.function [Ty.integer 256 Signedness.unsigned] [Ty.bool]) =
        some (SmtSort.function [SmtSort.int] SmtSort.bool) ∧
      smtSort (Ty.function [Ty.integer 256 Signedness.unsigned]
        [Ty.integer 256 Signedness.unsigned, Ty.bool]) = none) :=
  have hps : smtSortList [Ty.integer 256 Signedness.unsigned] = some [SmtSort.int] := rfl
  have hr : smtSort Ty.bool = some SmtSort.bool := rfl
  have hrs : ([Ty.integer 256 Signedness.unsigned, Ty.bool] : List Ty).length ≠ 1 := by
    decide
  ⟨hps, hr, hrs,
    smtSort_function_single_return [Ty.integer 256 Signedness.unsigned]
      [Ty.integer 256 Signedness.unsigned, Ty.bool] Ty.bool [SmtSort.int] SmtSort.bool
      hps hr hrs⟩

/-- C8: installing the unknown value for an expression of an integer
type of width n appends exactly the two assertions expr >= minValue and
expr <= maxValue, whose bounds are [0, 2^n − 1] when unsigned and
[−2^(n−1), 2^(n−1) − 1] when signed, and installs no assertion for an
expression of any non-integer type. -/
theorem setSymbolicUnknownValue_bounds (e : SmtExpr) (n : Nat) (s : Signedness)
    (t : Ty) (assertions : List SmtExpr) (ht : t.category ≠ Category.Integer) :
    setSymbolicUnknownValue e (Ty.integer n s) assertions =
      assertions ++
        [SmtExpr.ge e (SmtExpr.intLit (minValue n s)),
         SmtExpr.le e (SmtExpr.intLit (maxValue n s))] ∧
    (s = Signedness.unsigned → minValue n s = 0 ∧ maxValue n s = (2 ^ n : Int) - 1) ∧
    (s = Signedness.signed →
      minValue n s = -(2 ^ (n - 1) : Int) ∧ maxValue n s = (2 ^ (n - 1) : Int) - 1) ∧
    setSymbolicUnknownValue e t assertions = assertions := by
  refine ⟨rfl, ?_, ?_, ?_⟩
  · rintro rfl
    exact ⟨rfl, rfl⟩
  · rintro rfl
    exact ⟨rfl, rfl⟩
  · cases t
    case integer => exact absurd rfl ht
    all_goals rfl

/-- C8 (witness): unknown-value installation for a uint8 expression on
an empty assertion log, and the no-op for a Bool expression. -/
theorem setSymbolicUnknownValue_bounds_witness :
    Ty.bool.category ≠ Category.Integer ∧
    (setSymbolicUnknownValue (SmtExpr.sym "x") (Ty.integer 8 Signedness.unsigned) [] =
        [] ++
          [SmtExpr.ge (SmtExpr.sym "x") (SmtExpr.intLit (minValue 8 Signedness.unsigned)),
           SmtExpr.le (SmtExpr.sym "x") (SmtExpr.intLit (maxValue 8 Signedness.unsigned))] ∧
      (Signedness.unsigned = Signedness.unsigned →
        minValue 8 Signedness.unsigned = 0 ∧
          maxValue 8 Signedness.unsigned = (2 ^ 8 : Int) - 1) ∧
      (Signedness.unsigned = Signedness.signed →
        minValue 8 Signedness.unsigned = -(2 ^ (8 - 1) : Int) ∧
          maxValue 8 Signedness.unsigned = (2 ^ (8 - 1) : Int) - 1) ∧
      setSymbolicUnknownValue (SmtExpr.sym "x") Ty.bool [] = []) :=
  have ht : Ty.bool.category ≠ Category.Integer := by decide
  ⟨ht, setSymbolicUnknownValue_bounds (SmtExpr.sym "x") 8 Signedness.unsigned Ty.bool [] ht⟩

/-- C9: the sort of a mapping type is the array sort of the sorts of
its key and value types. -/
theorem smtSort_mapping_array (k v : Ty) (sk sv : SmtSort)
    (hk : smtSort k = some sk) (hv : smtSort v = some sv) :
    smtSort (Ty.mapping k v) = some (SmtSort.array sk sv) := by
  show ((smtSort k).bind fun ks => (smtSort v).map fun vs => SmtSort.array ks vs) =
    some (SmtSort.array sk sv)
  rw [hk, hv]
  rfl

/-- C9 (witness): two levels of nesting,
mapping(uint256 => mapping(address => bool)). -/
theorem smtSort_mapping_array_witness :
    smtSort (Ty.integer 256 Signedness.unsigned) = some SmtSort.int ∧
    smtSort Ty.address = some SmtSort.int ∧
    smtSort Ty.bool = some SmtSort.bool ∧
    smtSort (Ty.mapping (Ty.integer 256 Signedness.unsigned) (Ty.mapping Ty.address Ty.bool)) =
      some (SmtSort.array SmtSort.int (SmtSort.array SmtSort.int SmtSort.bool)) :=
  have hinner : smtSort (Ty.mapping Ty.address Ty.bool) =
      some (SmtSort.array SmtSort.int SmtSort.bool) :=
    smtSort_mapping_array Ty.address Ty.bool SmtSort.int SmtSort.bool rfl rfl
  ⟨rfl, rfl, rfl,
    smtSort_mapping_array (Ty.integer 256 Signedness.unsigned) (Ty.mapping Ty.address Ty.bool)
      SmtSort.int (SmtSort.array SmtSort.int SmtSort.bool) rfl hinner⟩

/-- C10: for every type of every category, newSymbolicVariable returns
a (flag, variable) pair: no execution reaches the final fall-through
contract violation, nor any of the assertions inside the branches
(every failure is modelled as none, and the result is never none). -/
theorem newSymbolicVariable_total (t : Ty) (name : String) :
    (newSymbolicVariable t name).isSome = true := by
  cases t <;> rfl

end SymbolicTypes
